import Mathlib

/-!
# Verification development for the DCE account manager

A shallow embedding of the IAM principal reconciliation code
(`pkg/accountmanager/iam.go`) and of the two HTTP handlers
(`cmd/lambda/leases/update.go`, `cmd/lambda/accounts/reset.go`).

Conventions of the embedding:

* A Go `error` result is an `Option`: `none` is `nil` (success).
* The identity-provider client `iamiface.IAMAPI` is a deterministic machine
  over an arbitrary state type `σ`: every operation maps the request and the
  current provider state to a response and the next provider state.  This
  covers every possible sequence of provider responses.
* `principalService` carries, besides the fields of the Go struct, the
  current provider state and the list of provider calls issued so far, each
  with the error it returned.  Log lines (`log.Printf`) are not modelled.
-/

namespace DCE

/-! ## Errors -/

/-- Error returned by the identity provider, by category.  The provider
exposes three distinguishable categories: already exists, no such entity and
everything else (kept with its error code). -/
inductive AwsError where
  | entityAlreadyExists
  | noSuchEntity
  | other (code : String)
  deriving DecidableEq, Repr

/-- Modelled from the spec: helper `isAWSAlreadyExistsError` of the
accountmanager package (not among the sources), true exactly for the
provider's "already exists" category. -/
def isAWSAlreadyExistsError : AwsError → Bool
  | .entityAlreadyExists => true
  | _ => false

/-- Modelled from the spec: helper `isAWSNoSuchEntityError` of the
accountmanager package (not among the sources), true exactly for the
provider's "no such entity" category. -/
def isAWSNoSuchEntityError : AwsError → Bool
  | .noSuchEntity => true
  | _ => false

/-- Errors returned by the service.  `internalServer` is
`errors.NewInternalServer(fmt.Sprintf(format, args...), cause)`, kept with
its format string and arguments unrendered; `storage` is an error of the
template store handed through unchanged. -/
inductive DceError where
  | internalServer (format : String) (args : List String) (cause : AwsError)
  | storage (cause : String)
  deriving DecidableEq, Repr

/-! ## Data model -/

/-- Modelled from the spec: resource reference `arn.ARN` (package not among
the sources), resolvable to a canonical identifier string (`String()`) and a
canonical resource name (`IAMResourceName()`). -/
structure ARN where
  -- what String() returns
  str : String
  -- what IAMResourceName() returns
  IAMResourceName : String
  deriving DecidableEq, Repr

/-- The fields of `account.Account` read by the service.  `ID` and the three
references are populated on every account handed to the service;
`PrincipalPolicyHash` is the nullable fingerprint. -/
structure Account where
  ID : String
  PrincipalRoleArn : ARN
  PrincipalPolicyArn : ARN
  AdminRoleArn : ARN
  PrincipalPolicyHash : Option String
  deriving DecidableEq, Repr

/-- The fields of `ServiceConfig` read by the policy code. -/
structure ServiceConfig where
  AccountID : String
  S3BucketName : String
  S3PolicyKey : String
  PrincipalPolicyDescription : String
  PrincipalIAMDenyTags : List String
  AllowedRegions : List String
  deriving DecidableEq, Repr

/-- One entry of `ListPolicyVersionsOutput.Versions`, with the three fields
the code reads, all populated as in every response of the provider.
`CreateDate` is the instant of creation on the time line, so that
`time.Time.Before` is `<`. -/
structure PolicyVersion where
  VersionId : String
  IsDefaultVersion : Bool
  CreateDate : Int
  deriving DecidableEq, Repr

/-- The local struct `principalPolicyInput` of `buildPolicy`. -/
structure principalPolicyInput where
  PrincipalPolicyArn : String
  PrincipalRoleArn : String
  PrincipalIAMDenyTags : List String
  AdminRoleArn : String
  Regions : List String
  deriving DecidableEq, Repr

/-- The local struct `principalPolicyInput` of `buildPolicyBluepi`. -/
structure principalPolicyInputBluepi where
  PrincipalPolicyArn : String
  PrincipalRoleArn : String
  PrincipalIAMDenyTags : List String
  AdminRoleArn : String
  Regions : List String
  BluePiRoleArn : String
  deriving DecidableEq, Repr

/-- The substitution variables handed to the template store (a Go
`interface{}` holding one of the two local structs). -/
inductive TemplateVars where
  | principal (input : principalPolicyInput)
  | bluepi (input : principalPolicyInputBluepi)
  deriving DecidableEq, Repr

/-- The template store `common.Storager`:
`GetTemplateObject(bucket, key, input)` gives the rendered document and its
fingerprint, or an error. -/
structure Storager where
  GetTemplateObject : String → String → TemplateVars → Except String (String × String)

/-! ## The identity provider -/

/-- A request sent to the identity provider. -/
inductive Call where
  | CreatePolicy (PolicyName Description PolicyDocument : String)
  | ListPolicyVersions (PolicyArn : String)
  | DeletePolicyVersion (PolicyArn VersionId : String)
  | CreatePolicyVersion (PolicyArn PolicyDocument : String) (SetAsDefault : Bool)
  | DeletePolicy (PolicyArn : String)
  deriving DecidableEq, Repr

/-- The operation of a request, without its arguments. -/
inductive Op where
  | CreatePolicy | ListPolicyVersions | DeletePolicyVersion | CreatePolicyVersion | DeletePolicy
  deriving DecidableEq, Repr

/-- The operation a request belongs to. -/
def Call.op : Call → Op
  | .CreatePolicy _ _ _ => .CreatePolicy
  | .ListPolicyVersions _ => .ListPolicyVersions
  | .DeletePolicyVersion _ _ => .DeletePolicyVersion
  | .CreatePolicyVersion _ _ _ => .CreatePolicyVersion
  | .DeletePolicy _ => .DeletePolicy

/-- A request together with the error the provider answered (`none`: the
request succeeded). -/
structure Issued where
  call : Call
  err : Option AwsError
  deriving DecidableEq, Repr

/-- The client `iamiface.IAMAPI`, restricted to the policy operations, as a
machine over the provider state `σ`. -/
structure IAMAPI (σ : Type) where
  CreatePolicy : String → String → String → σ → Option AwsError × σ
  ListPolicyVersions : String → σ → Except AwsError (List PolicyVersion) × σ
  DeletePolicyVersion : String → String → σ → Option AwsError × σ
  CreatePolicyVersion : String → String → Bool → σ → Option AwsError × σ
  DeletePolicy : String → σ → Option AwsError × σ

/-- The struct `principalService`, with the provider state behind `iamSvc`
and the provider calls issued so far. -/
structure principalService (σ : Type) where
  iamSvc : IAMAPI σ
  storager : Storager
  account : Account
  config : ServiceConfig
  iamState : σ
  issued : List Issued

variable {σ : Type}

/-- The service after a provider call: new provider state, call appended. -/
def principalService.record (p : principalService σ) (c : Call) (e : Option AwsError) (s : σ) :
    principalService σ :=
  { p with iamState := s, issued := p.issued ++ [⟨c, e⟩] }

/-- The error of a response carrying a value. -/
def errOf {α : Type} : Except AwsError α → Option AwsError
  | .ok _ => none
  | .error e => some e

/-- Issues `p.iamSvc.CreatePolicy(&iam.CreatePolicyInput{...})` and records it. -/
def principalService.callCreatePolicy (p : principalService σ) (name description document : String) :
    Option AwsError × principalService σ :=
  let r := p.iamSvc.CreatePolicy name description document p.iamState
  (r.1, p.record (.CreatePolicy name description document) r.1 r.2)

/-- Issues `p.iamSvc.ListPolicyVersions(&iam.ListPolicyVersionsInput{...})` and records it. -/
def principalService.callListPolicyVersions (p : principalService σ) (policyArn : String) :
    Except AwsError (List PolicyVersion) × principalService σ :=
  let r := p.iamSvc.ListPolicyVersions policyArn p.iamState
  (r.1, p.record (.ListPolicyVersions policyArn) (errOf r.1) r.2)

/-- Issues `p.iamSvc.DeletePolicyVersion(&iam.DeletePolicyVersionInput{...})` and records it. -/
def principalService.callDeletePolicyVersion (p : principalService σ) (policyArn versionId : String) :
    Option AwsError × principalService σ :=
  let r := p.iamSvc.DeletePolicyVersion policyArn versionId p.iamState
  (r.1, p.record (.DeletePolicyVersion policyArn versionId) r.1 r.2)

/-- Issues `p.iamSvc.CreatePolicyVersion(&iam.CreatePolicyVersionInput{...})` and records it. -/
def principalService.callCreatePolicyVersion (p : principalService σ) (policyArn document : String)
    (setAsDefault : Bool) : Option AwsError × principalService σ :=
  let r := p.iamSvc.CreatePolicyVersion policyArn document setAsDefault p.iamState
  (r.1, p.record (.CreatePolicyVersion policyArn document setAsDefault) r.1 r.2)

/-- Issues `p.iamSvc.DeletePolicy(&iam.DeletePolicyInput{...})` and records it. -/
def principalService.callDeletePolicy (p : principalService σ) (policyArn : String) :
    Option AwsError × principalService σ :=
  let r := p.iamSvc.DeletePolicy policyArn p.iamState
  (r.1, p.record (.DeletePolicy policyArn) r.1 r.2)

/-! ## `pkg/accountmanager/iam.go` -/

/-- Embeds `principalService.buildPolicy`: the rendered policy and its fingerprint. -/
def principalService.buildPolicy (p : principalService σ) : Except DceError (String × String) :=
  match p.storager.GetTemplateObject p.config.S3BucketName p.config.S3PolicyKey
      (.principal
        { PrincipalPolicyArn := p.account.PrincipalPolicyArn.str
          PrincipalRoleArn := p.account.PrincipalRoleArn.str
          PrincipalIAMDenyTags := p.config.PrincipalIAMDenyTags
          AdminRoleArn := p.account.AdminRoleArn.str
          Regions := p.config.AllowedRegions }) with
  | .error err => .error (.storage err)
  | .ok (policy, policyHash) => .ok (policy, policyHash)

/-- Embeds `principalService.deletePolicyVersion`. -/
def principalService.deletePolicyVersion (p : principalService σ) (version : PolicyVersion) :
    Option DceError × principalService σ :=
  match p.callDeletePolicyVersion p.account.PrincipalPolicyArn.str version.VersionId with
  | (some err, p1) =>
    (some (.internalServer "unexpected error deleting policy version %q on policy %q"
      [version.VersionId, p.account.PrincipalPolicyArn.str] err), p1)
  | (none, p1) => (none, p1)

/-- One iteration of the loop of `prunePolicyVersions` over the versions:
`oldestVersion` after looking at `version`. -/
def pruneStep (oldestVersion : Option PolicyVersion) (version : PolicyVersion) : Option PolicyVersion :=
  if version.IsDefaultVersion then oldestVersion
  else
    match oldestVersion with
    | none => some version
    | some oldest => if version.CreateDate < oldest.CreateDate then some version else some oldest

/-- The loop of `prunePolicyVersions`, started with `oldestVersion == nil`. -/
def oldestNonDefault (versions : List PolicyVersion) : Option PolicyVersion :=
  versions.foldl pruneStep none

/-- Embeds `principalService.prunePolicyVersions`. -/
def principalService.prunePolicyVersions (p : principalService σ) : Option DceError × principalService σ :=
  match p.callListPolicyVersions p.account.PrincipalPolicyArn.str with
  | (.error err, p1) =>
    (some (.internalServer "unexpected error listing policy versions on %q"
      [p.account.PrincipalPolicyArn.str] err), p1)
  | (.ok versions, p1) =>
    if versions.length < 5 && versions.length > 1 then (none, p1)
    else
      match oldestNonDefault versions with
      | some oldestVersion => p1.deletePolicyVersion oldestVersion
      | none => (none, p1)

/-- The service with `p.account.PrincipalPolicyHash = policyHash`. -/
def principalService.setHash (p : principalService σ) (policyHash : String) : principalService σ :=
  { p with account := { p.account with PrincipalPolicyHash := some policyHash } }

/-- Embeds `principalService.MergePolicy`.  The two nested `if`s on the old
hash return early exactly when the hash is non-nil and equal to the new one
(`hashMatches`).  On the version-creation path the hash is assigned before
the error of `CreatePolicyVersion` is looked at, as in the source. -/
def principalService.MergePolicy (p : principalService σ) : Option DceError × principalService σ :=
  match p.buildPolicy with
  | .error err => (some err, p)
  | .ok (policy, policyHash) =>
    let hashMatches : Bool :=
      match p.account.PrincipalPolicyHash with
      | some old => decide (policyHash = old)
      | none => false
    if hashMatches then (none, p)
    else
      match p.callCreatePolicy p.account.PrincipalPolicyArn.IAMResourceName
          p.config.PrincipalPolicyDescription policy with
      | (none, p1) => (none, p1.setHash policyHash)
      | (some err, p1) =>
        if isAWSAlreadyExistsError err then
          match p1.prunePolicyVersions with
          | (some err2, p2) => (some err2, p2)
          | (none, p2) =>
            match p2.callCreatePolicyVersion p.account.PrincipalPolicyArn.str policy true with
            | (some err3, p3) =>
              (some (.internalServer "unexpected error creating policy version %q"
                [p.account.PrincipalPolicyArn.str] err3), p3.setHash policyHash)
            | (none, p3) => (none, p3.setHash policyHash)
        else
          (some (.internalServer "unexpected error creating policy %q"
            [p.account.PrincipalPolicyArn.str] err), p1)

/-- The first loop of `DeletePolicy`: deletes the non-default versions in
list order and returns at the first failure. -/
def principalService.deleteVersionsLoop :
    List PolicyVersion → principalService σ → Option DceError × principalService σ
  | [], p => (none, p)
  | version :: rest, p =>
    if !version.IsDefaultVersion then
      match p.deletePolicyVersion version with
      | (some err, p1) => (some err, p1)
      | (none, p1) => deleteVersionsLoop rest p1
    else deleteVersionsLoop rest p

/-- Embeds `principalService.DeletePolicy`. -/
def principalService.DeletePolicy (p : principalService σ) : Option DceError × principalService σ :=
  match p.callListPolicyVersions p.account.PrincipalPolicyArn.str with
  | (.error err, p1) =>
    (some (.internalServer "unexpected error listing policy versions on %q"
      [p.account.PrincipalPolicyArn.str] err), p1)
  | (.ok versions, p1) =>
    match principalService.deleteVersionsLoop versions p1 with
    | (some err, p2) => (some err, p2)
    | (none, p2) =>
      match p2.callDeletePolicy p.account.PrincipalPolicyArn.str with
      | (some err, p3) =>
        if isAWSNoSuchEntityError err then (none, p3)
        else
          (some (.internalServer "unexpected error deleting the policy %q"
            [p.account.PrincipalPolicyArn.str] err), p3)
      | (none, p3) => (none, p3)

/-- Embeds `principalService.buildPolicyBluepi`. -/
def principalService.buildPolicyBluepi (p : principalService σ) (policy_name role_name : String) :
    Except DceError (String × String) :=
  let policy_s3_key := policy_name ++ "." ++ "tmpl"
  let bluepi_role_arn := "arn:aws:iam::" ++ p.config.AccountID ++ ":role/" ++ role_name
  match p.storager.GetTemplateObject p.config.S3BucketName policy_s3_key
      (.bluepi
        { PrincipalPolicyArn := p.account.PrincipalPolicyArn.str
          PrincipalRoleArn := p.account.PrincipalRoleArn.str
          PrincipalIAMDenyTags := p.config.PrincipalIAMDenyTags
          AdminRoleArn := p.account.AdminRoleArn.str
          Regions := p.config.AllowedRegions
          BluePiRoleArn := bluepi_role_arn }) with
  | .error err => .error (.storage err)
  | .ok (policy, policyHash) => .ok (policy, policyHash)

/-- Embeds `principalService.MergePolicyBluepi`; the hash check, the pruning
and the version creation are commented out in the source. -/
def principalService.MergePolicyBluepi (p : principalService σ) (policy_name role_name : String) :
    Option DceError × principalService σ :=
  match p.buildPolicyBluepi policy_name role_name with
  | .error err => (some err, p)
  | .ok (policy, _) =>
    match p.callCreatePolicy policy_name p.config.PrincipalPolicyDescription policy with
    | (none, p1) => (none, p1)
    | (some err, p1) =>
      if isAWSAlreadyExistsError err then (none, p1)
      else
        (some (.internalServer "unexpected error creating policy %s" [policy_name] err), p1)

/-! ## Providers used to evaluate the code on concrete inputs -/

/-- A fixed answer for each provider operation. -/
structure Answers where
  CreatePolicy : Option AwsError
  ListPolicyVersions : Except AwsError (List PolicyVersion)
  DeletePolicyVersion : Option AwsError
  CreatePolicyVersion : Option AwsError
  DeletePolicy : Option AwsError

/-- The stateless provider that gives each operation its fixed answer. -/
def fixedProvider (a : Answers) : IAMAPI Unit where
  CreatePolicy := fun _ _ _ s => (a.CreatePolicy, s)
  ListPolicyVersions := fun _ s => (a.ListPolicyVersions, s)
  DeletePolicyVersion := fun _ _ s => (a.DeletePolicyVersion, s)
  CreatePolicyVersion := fun _ _ _ s => (a.CreatePolicyVersion, s)
  DeletePolicy := fun _ s => (a.DeletePolicy, s)

/-- A provider holding one policy: the state is `none` when the policy does
not exist and the list of its versions when it does.  Every request
addressed to the policy while it does not exist reports no-such-entity,
`ListPolicyVersions` included; creating it while it exists reports
already-exists. -/
def onePolicyProvider : IAMAPI (Option (List PolicyVersion)) where
  CreatePolicy := fun _ _ _ s =>
    match s with
    | none => (none, some [⟨"v1", true, 0⟩])
    | some vs => (some .entityAlreadyExists, some vs)
  ListPolicyVersions := fun _ s =>
    match s with
    | none => (.error .noSuchEntity, none)
    | some vs => (.ok vs, some vs)
  DeletePolicyVersion := fun _ versionId s =>
    match s with
    | none => (some .noSuchEntity, none)
    | some vs =>
      match vs.find? (fun v => v.VersionId == versionId) with
      | none => (some .noSuchEntity, some vs)
      | some v =>
        if v.IsDefaultVersion then (some (.other "DeleteConflict"), some vs)
        else (none, some (vs.filter (fun w => w.VersionId != versionId)))
  CreatePolicyVersion := fun _ _ setAsDefault s =>
    match s with
    | none => (some .noSuchEntity, none)
    | some vs =>
      if 5 ≤ vs.length then (some (.other "LimitExceeded"), some vs)
      else if setAsDefault then
        (none, some (vs.map (fun v => { v with IsDefaultVersion := false }) ++
          [⟨"v" ++ toString (vs.length + 1), true, vs.length⟩]))
      else (none, some (vs ++ [⟨"v" ++ toString (vs.length + 1), false, vs.length⟩]))
  DeletePolicy := fun _ s =>
    match s with
    | none => (some .noSuchEntity, none)
    | some vs =>
      if vs.any (fun v => !v.IsDefaultVersion) then (some (.other "DeleteConflict"), some vs)
      else (none, none)

/-- The answers of a provider on which every operation succeeds and the policy
has its default version only. -/
def quietAnswers : Answers where
  CreatePolicy := none
  ListPolicyVersions := .ok [⟨"v1", true, 0⟩]
  DeletePolicyVersion := none
  CreatePolicyVersion := none
  DeletePolicy := none

/-- Five versions, the third the default one; the oldest non-default one is
`v2`. -/
def fiveVersions : List PolicyVersion :=
  [⟨"v1", false, 30⟩, ⟨"v2", false, 10⟩, ⟨"v3", true, 5⟩, ⟨"v4", false, 20⟩, ⟨"v5", false, 40⟩]

/-- A template store that renders every template to the document `doc` with
the fingerprint `h2`. -/
def sampleStorager : Storager where
  GetTemplateObject := fun _ _ _ => .ok ("doc", "h2")

/-- An account that was never reconciled. -/
def sampleAccount : Account where
  ID := "acct-123"
  PrincipalRoleArn := ⟨"arn:aws:iam::acct-123:role/DCEPrincipal", "DCEPrincipal"⟩
  PrincipalPolicyArn := ⟨"arn:aws:iam::acct-123:policy/DCEPrincipalDefaultPolicy", "DCEPrincipalDefaultPolicy"⟩
  AdminRoleArn := ⟨"arn:aws:iam::acct-123:role/AdminAccess", "AdminAccess"⟩
  PrincipalPolicyHash := none

/-- A service configuration. -/
def sampleConfig : ServiceConfig where
  AccountID := "acct-123"
  S3BucketName := "bucket"
  S3PolicyKey := "policy.tmpl"
  PrincipalPolicyDescription := "principal policy"
  PrincipalIAMDenyTags := ["DCE"]
  AllowedRegions := ["us-east-1"]

/-- A service over the fixed-answer provider, with no call issued yet. -/
def sampleService (a : Answers) (hash : Option String) : principalService Unit where
  iamSvc := fixedProvider a
  storager := sampleStorager
  account := { sampleAccount with PrincipalPolicyHash := hash }
  config := sampleConfig
  iamState := ()
  issued := []

/-- A service over the one-policy provider in state `s`, with no call issued
yet. -/
def onePolicyService (s : Option (List PolicyVersion)) : principalService (Option (List PolicyVersion)) where
  iamSvc := onePolicyProvider
  storager := sampleStorager
  account := sampleAccount
  config := sampleConfig
  iamState := s
  issued := []

/-- A service whose account already carries the fingerprint `h2` that the
template renders to. -/
def reconciledService : principalService Unit :=
  sampleService quietAnswers (some "h2")

/-- A service for a never reconciled account; every provider operation
succeeds. -/
def freshService : principalService Unit :=
  sampleService quietAnswers none

/-- A service whose provider lists `fiveVersions` and lets every operation
succeed. -/
def fiveVersionsService : principalService Unit :=
  sampleService { quietAnswers with ListPolicyVersions := .ok fiveVersions } none

/-- A service whose provider lists a single version that is not the default
one. -/
def singleNonDefaultService : principalService Unit :=
  sampleService { quietAnswers with ListPolicyVersions := .ok [⟨"v1", false, 0⟩] } none

/-- A service for a never reconciled account whose policy already exists
with its default version, and whose provider refuses to create a policy
version. -/
def failingVersionService : principalService Unit :=
  sampleService
    { quietAnswers with
      CreatePolicy := some .entityAlreadyExists
      CreatePolicyVersion := some (.other "LimitExceeded") } none

/-- A service for a never reconciled account whose policy already exists with
its default version; every other provider operation succeeds. -/
def existingPolicyService : principalService Unit :=
  sampleService { quietAnswers with CreatePolicy := some .entityAlreadyExists } none

/-- A service over the one-policy provider, the policy existing with its
default version and one other version. -/
def twoVersionsService : principalService (Option (List PolicyVersion)) :=
  onePolicyService (some [⟨"v1", true, 0⟩, ⟨"v2", false, 1⟩])

/-! ## `cmd/lambda/leases/update.go` -/

/-- The request object `lease.Lease` as decoded from the body: the nullable
`ID`, and the remaining fields, which the handler does not read, as
name/value pairs. -/
structure Lease where
  ID : Option String
  fields : List (String × String)
  deriving DecidableEq, Repr

/-- The errors handed to `api.WriteAPIErrorResponse`. -/
inductive APIError where
  | badRequest (message : String)
  | validation (entity : String) (errs : List (String × String))
  | service (cause : String)
  deriving DecidableEq, Repr

/-- What a handler writes: `api.WriteAPIErrorResponse(w, err)` or
`api.WriteAPIResponse(w, status, body)`. -/
inductive APIResponse where
  | error (err : APIError)
  | response (status : Nat) (body : Option Lease)
  deriving DecidableEq, Repr

/-- A validation rule of ozzo-validation applied to a `*string` value: `none`
when the value passes, the rule's message otherwise. -/
abbrev Rule := Option String → Option String

/-- The rule `validation.NilOrNotEmpty` of ozzo-validation: a nil pointer
passes, a pointer to an empty value fails with "cannot be blank". -/
def NilOrNotEmpty : Rule
  | none => none
  | some s => if s = "" then some "cannot be blank" else none

/-- The rule `validation.In(elements...)` of ozzo-validation: a nil pointer
and an empty value pass, any other value must be one of `elements`. -/
def In (elements : List String) : Rule
  | none => none
  | some s => if s = "" then none else if elements.contains s then none else some "must be a valid value"

/-- The function `validation.Validate(value, rules...)`: the error of the first
rule that fails. -/
def Validate (value : Option String) : List Rule → Option String
  | [] => none
  | rule :: rules =>
    match rule value with
    | some err => some err
    | none => Validate value rules

/-- The call `validation.ValidateStruct(newLease, validation.Field(&newLease.ID, rules...))`:
the errors by field name, `none` when the field passes. -/
def ValidateStruct (newLease : Lease) (rules : List Rule) : Option (List (String × String)) :=
  match Validate newLease.ID rules with
  | some err => some [("id", err)]
  | none => none

/-- What a run of `UpdateLeaseByID` does: the responses written and the calls
made to `LeaseService().Update`. -/
structure UpdateRun where
  written : List APIResponse
  updates : List (String × Lease)
  deriving DecidableEq, Repr

/-- The handler `UpdateLeaseByID`.  `Update` is `Services.LeaseService().Update`,
`leaseID` is `mux.Vars(r)["leaseID"]` and `decoded` is the outcome of decoding
the request body. -/
def UpdateLeaseByID (Update : String → Lease → Except String Lease) (leaseID : String)
    (decoded : Except String Lease) : UpdateRun :=
  match decoded with
  | .error _ => ⟨[.error (.badRequest "invalid request parameters")], []⟩
  | .ok newLease =>
    match ValidateStruct newLease [NilOrNotEmpty, In [leaseID]] with
    | some err => ⟨[.error (.validation "lease" err)], []⟩
    | none =>
      match Update leaseID newLease with
      | .error err => ⟨[.error (.service err)], [(leaseID, newLease)]⟩
      | .ok lease => ⟨[.response 200 (some lease)], [(leaseID, newLease)]⟩

/-! ## `cmd/lambda/accounts/reset.go` -/

/-- How a run of a handler ends: it returns having written responses, or it
stops with Go's nil pointer dereference panic before returning. -/
inductive HandlerEnd where
  | returned (written : List APIResponse)
  | nilPointerDereference (written : List APIResponse)
  deriving DecidableEq, Repr

/-- The handler `ResetAccount`.  `Reset` is `Services.AccountService().Reset`,
which returns an account pointer (`none`: nil) and an error (`none`: nil).
Both branches evaluate `*account.ID` for their log line before writing the
response. -/
def ResetAccount (Reset : String → Option Account × Option String) (accountID : String) : HandlerEnd :=
  match Reset accountID with
  | (account, some err) =>
    match account with
    | none => .nilPointerDereference []
    | some _ => .returned [.error (.service err)]
  | (account, none) =>
    match account with
    | none => .nilPointerDereference []
    | some _ => .returned [.response 204 none]

/-! ## Theorems: `MergePolicy` -/

/-- C1: when the account's hash is non-nil and equal to the rendered
fingerprint, `MergePolicy` returns success and leaves the service as it was:
no provider call is issued, the provider state and the account (hence
`PrincipalPolicyHash`) are unchanged. -/
theorem MergePolicy_hash_match_is_noop (p : principalService σ) (policy policyHash : String)
    (hbuild : p.buildPolicy = .ok (policy, policyHash))
    (hhash : p.account.PrincipalPolicyHash = some policyHash) :
    p.MergePolicy = (none, p) := by
  unfold principalService.MergePolicy
  rw [hbuild]
  simp [hhash]

/-- Witness of C1 on an account whose hash is the rendered fingerprint. -/
theorem MergePolicy_hash_match_is_noop_witness :
    (reconciledService.buildPolicy = .ok ("doc", "h2") ∧
      reconciledService.account.PrincipalPolicyHash = some "h2") ∧
    reconciledService.MergePolicy = (none, reconciledService) :=
  ⟨⟨rfl, rfl⟩, MergePolicy_hash_match_is_noop reconciledService "doc" "h2" rfl rfl⟩

/-- C5: when the account's hash is nil or differs from the rendered
fingerprint and `CreatePolicy` succeeds, `MergePolicy` returns success, the
only provider call issued is that `CreatePolicy`, and the account's
`PrincipalPolicyHash` is the rendered fingerprint. -/
theorem MergePolicy_create_succeeds (p : principalService σ) (policy policyHash : String) (s : σ)
    (hbuild : p.buildPolicy = .ok (policy, policyHash))
    (hhash : p.account.PrincipalPolicyHash ≠ some policyHash)
    (hcreate : p.iamSvc.CreatePolicy p.account.PrincipalPolicyArn.IAMResourceName
      p.config.PrincipalPolicyDescription policy p.iamState = (none, s)) :
    p.MergePolicy =
        (none,
          (p.record (.CreatePolicy p.account.PrincipalPolicyArn.IAMResourceName
            p.config.PrincipalPolicyDescription policy) none s).setHash policyHash) ∧
      p.MergePolicy.2.issued =
        p.issued ++ [⟨.CreatePolicy p.account.PrincipalPolicyArn.IAMResourceName
          p.config.PrincipalPolicyDescription policy, none⟩] ∧
      p.MergePolicy.2.account.PrincipalPolicyHash = some policyHash := by
  suffices h : p.MergePolicy =
      (none,
        (p.record (.CreatePolicy p.account.PrincipalPolicyArn.IAMResourceName
          p.config.PrincipalPolicyDescription policy) none s).setHash policyHash) by
    rw [h]
    exact ⟨rfl, rfl, rfl⟩
  unfold principalService.MergePolicy
  rw [hbuild]
  have hm : (match p.account.PrincipalPolicyHash with
      | some old => decide (policyHash = old)
      | none => false) = false := by
    cases h : p.account.PrincipalPolicyHash with
    | none => rfl
    | some old =>
      have : policyHash ≠ old := fun e => hhash (by rw [h, e])
      simp [this]
  simp only [hm]
  simp [principalService.callCreatePolicy, hcreate, principalService.record,
    principalService.setHash]

/-- Witness of C5 on a never reconciled account and a provider whose
`CreatePolicy` succeeds. -/
theorem MergePolicy_create_succeeds_witness :
    (freshService.buildPolicy = .ok ("doc", "h2") ∧
      freshService.account.PrincipalPolicyHash ≠ some "h2" ∧
      freshService.iamSvc.CreatePolicy "DCEPrincipalDefaultPolicy"
        "principal policy" "doc" () = (none, ())) ∧
    (freshService.MergePolicy =
        (none,
          (freshService.record (.CreatePolicy "DCEPrincipalDefaultPolicy" "principal policy" "doc")
            none ()).setHash "h2") ∧
      freshService.MergePolicy.2.issued =
        [] ++ [⟨.CreatePolicy "DCEPrincipalDefaultPolicy" "principal policy" "doc", none⟩] ∧
      freshService.MergePolicy.2.account.PrincipalPolicyHash = some "h2") :=
  ⟨⟨rfl, by decide, rfl⟩,
    MergePolicy_create_succeeds freshService "doc" "h2" () rfl (by decide) rfl⟩

/-- C4: evaluation at the failing input.  The account has no hash, the
template renders to fingerprint `h2`, `CreatePolicy` reports already-exists
and `CreatePolicyVersion` fails: `MergePolicy` returns an internal error,
neither `CreatePolicy` nor `CreatePolicyVersion` succeeded, and the account's
`PrincipalPolicyHash` has nevertheless become `h2`. -/
theorem MergePolicy_failed_version_changes_hash :
    failingVersionService.account.PrincipalPolicyHash = none ∧
    failingVersionService.MergePolicy.1 = some (.internalServer "unexpected error creating policy version %q"
      ["arn:aws:iam::acct-123:policy/DCEPrincipalDefaultPolicy"] (.other "LimitExceeded")) ∧
    failingVersionService.MergePolicy.2.issued =
      [⟨.CreatePolicy "DCEPrincipalDefaultPolicy" "principal policy" "doc", some .entityAlreadyExists⟩,
       ⟨.ListPolicyVersions "arn:aws:iam::acct-123:policy/DCEPrincipalDefaultPolicy", none⟩,
       ⟨.CreatePolicyVersion "arn:aws:iam::acct-123:policy/DCEPrincipalDefaultPolicy" "doc" true,
         some (.other "LimitExceeded")⟩] ∧
    failingVersionService.MergePolicy.2.account.PrincipalPolicyHash = some "h2" := by
  refine ⟨rfl, rfl, rfl, rfl⟩

/-! ## Theorems: `prunePolicyVersions` -/

/-- The loop of `prunePolicyVersions` keeps a non-default candidate that is
not created after the starting candidate nor after any non-default version
it has looked at. -/
theorem foldl_pruneStep_some (versions : List PolicyVersion) :
    ∀ (acc : Option PolicyVersion) (v : PolicyVersion),
      (∀ a, acc = some a → a.IsDefaultVersion = false) →
      versions.foldl pruneStep acc = some v →
      v.IsDefaultVersion = false ∧ (acc = some v ∨ v ∈ versions) ∧
        (∀ a, acc = some a → v.CreateDate ≤ a.CreateDate) ∧
        ∀ w ∈ versions, w.IsDefaultVersion = false → v.CreateDate ≤ w.CreateDate := by
  induction versions with
  | nil =>
    intro acc v hacc h
    simp only [List.foldl_nil] at h
    refine ⟨hacc v h, Or.inl h, ?_, ?_⟩
    · intro a ha
      rw [h] at ha
      cases ha
      exact le_refl _
    · intro w hw
      cases hw
  | cons x xs ih =>
    intro acc v hacc h
    simp only [List.foldl_cons] at h
    cases hx : x.IsDefaultVersion with
    | true =>
      have hstep : pruneStep acc x = acc := by simp [pruneStep, hx]
      rw [hstep] at h
      obtain ⟨h1, h2, h3, h4⟩ := ih acc v hacc h
      refine ⟨h1, ?_, h3, ?_⟩
      · rcases h2 with h2 | h2
        · exact Or.inl h2
        · exact Or.inr (List.mem_cons_of_mem _ h2)
      · intro w hw hwd
        rcases List.mem_cons.mp hw with rfl | hw
        · rw [hx] at hwd
          cases hwd
        · exact h4 w hw hwd
    | false =>
      cases acc with
      | none =>
        have hstep : pruneStep none x = some x := by simp [pruneStep, hx]
        rw [hstep] at h
        obtain ⟨h1, h2, h3, h4⟩ := ih (some x) v (by intro a ha; cases ha; exact hx) h
        refine ⟨h1, Or.inr ?_, ?_, ?_⟩
        · rcases h2 with h2 | h2
          · cases h2
            exact List.mem_cons_self _ _
          · exact List.mem_cons_of_mem _ h2
        · intro a ha
          cases ha
        · intro w hw hwd
          rcases List.mem_cons.mp hw with rfl | hw
          · exact h3 w rfl
          · exact h4 w hw hwd
      | some o =>
        by_cases hlt : x.CreateDate < o.CreateDate
        · have hstep : pruneStep (some o) x = some x := by simp [pruneStep, hx, hlt]
          rw [hstep] at h
          obtain ⟨h1, h2, h3, h4⟩ := ih (some x) v (by intro a ha; cases ha; exact hx) h
          refine ⟨h1, Or.inr ?_, ?_, ?_⟩
          · rcases h2 with h2 | h2
            · cases h2
              exact List.mem_cons_self _ _
            · exact List.mem_cons_of_mem _ h2
          · intro a ha
            cases ha
            exact le_of_lt (lt_of_le_of_lt (h3 x rfl) hlt)
          · intro w hw hwd
            rcases List.mem_cons.mp hw with rfl | hw
            · exact h3 w rfl
            · exact h4 w hw hwd
        · have hstep : pruneStep (some o) x = some o := by simp [pruneStep, hx, hlt]
          rw [hstep] at h
          obtain ⟨h1, h2, h3, h4⟩ := ih (some o) v hacc h
          refine ⟨h1, ?_, h3, ?_⟩
          · rcases h2 with h2 | h2
            · exact Or.inl h2
            · exact Or.inr (List.mem_cons_of_mem _ h2)
          · intro w hw hwd
            rcases List.mem_cons.mp hw with rfl | hw
            · exact le_trans (h3 o rfl) (not_lt.mp hlt)
            · exact h4 w hw hwd

/-- Once the loop of `prunePolicyVersions` holds a candidate it keeps one. -/
theorem foldl_pruneStep_isSome (versions : List PolicyVersion) :
    ∀ acc : Option PolicyVersion, acc.isSome = true →
      (versions.foldl pruneStep acc).isSome = true := by
  induction versions with
  | nil => intro acc h; simpa using h
  | cons x xs ih =>
    intro acc h
    simp only [List.foldl_cons]
    apply ih
    cases acc with
    | none => cases h
    | some o =>
      unfold pruneStep
      cases x.IsDefaultVersion <;> simp
      split <;> rfl

/-- The loop of `prunePolicyVersions` finds a candidate whenever the list has
a non-default version. -/
theorem oldestNonDefault_isSome (versions : List PolicyVersion)
    (h : ∃ v ∈ versions, v.IsDefaultVersion = false) :
    (oldestNonDefault versions).isSome = true := by
  unfold oldestNonDefault
  suffices hs : ∀ acc : Option PolicyVersion, (versions.foldl pruneStep acc).isSome = true from hs none
  induction versions with
  | nil =>
    obtain ⟨v, hv, _⟩ := h
    cases hv
  | cons x xs ih =>
    intro acc
    simp only [List.foldl_cons]
    cases hx : x.IsDefaultVersion with
    | true =>
      have hstep : pruneStep acc x = acc := by simp [pruneStep, hx]
      rw [hstep]
      apply ih
      obtain ⟨v, hv, hvd⟩ := h
      rcases List.mem_cons.mp hv with rfl | hv
      · rw [hx] at hvd
        cases hvd
      · exact ⟨v, hv, hvd⟩
    | false =>
      apply foldl_pruneStep_isSome
      cases acc with
      | none => simp [pruneStep, hx]
      | some o =>
        unfold pruneStep
        simp only [hx]
        simp
        split <;> rfl

/-- C2: when `ListPolicyVersions` returns at least 5 versions, one of them
non-default, `prunePolicyVersions` issues, after the listing, exactly one
`DeletePolicyVersion` call and nothing else; its target is a non-default
version of the list created no later than every non-default version of the
list. -/
theorem prunePolicyVersions_deletes_oldest_non_default (p : principalService σ)
    (versions : List PolicyVersion) (s : σ)
    (hlist : p.iamSvc.ListPolicyVersions p.account.PrincipalPolicyArn.str p.iamState = (.ok versions, s))
    (hlen : 5 ≤ versions.length)
    (hnd : ∃ v ∈ versions, v.IsDefaultVersion = false) :
    ∃ target ∈ versions,
      target.IsDefaultVersion = false ∧
      (∀ w ∈ versions, w.IsDefaultVersion = false → target.CreateDate ≤ w.CreateDate) ∧
      p.prunePolicyVersions.2.issued =
        p.issued ++
          [⟨.ListPolicyVersions p.account.PrincipalPolicyArn.str, none⟩,
           ⟨.DeletePolicyVersion p.account.PrincipalPolicyArn.str target.VersionId,
             (p.iamSvc.DeletePolicyVersion p.account.PrincipalPolicyArn.str target.VersionId s).1⟩] ∧
      (p.prunePolicyVersions.2.issued.filter (fun i => i.call.op = Op.DeletePolicyVersion)).length =
        (p.issued.filter (fun i => i.call.op = Op.DeletePolicyVersion)).length + 1 := by
  have hsome := oldestNonDefault_isSome versions hnd
  obtain ⟨target, ht⟩ := Option.isSome_iff_exists.mp hsome
  have hspec := foldl_pruneStep_some versions none target (by intro a ha; cases ha) ht
  obtain ⟨h1, h2, _, h4⟩ := hspec
  have hmem : target ∈ versions := by
    rcases h2 with h2 | h2
    · cases h2
    · exact h2
  have hcond : ¬ (versions.length < 5) := by omega
  have hissued : p.prunePolicyVersions.2.issued =
        p.issued ++
          [⟨.ListPolicyVersions p.account.PrincipalPolicyArn.str, none⟩,
           ⟨.DeletePolicyVersion p.account.PrincipalPolicyArn.str target.VersionId,
             (p.iamSvc.DeletePolicyVersion p.account.PrincipalPolicyArn.str target.VersionId s).1⟩] := by
    unfold principalService.prunePolicyVersions principalService.callListPolicyVersions
    simp only [hlist, errOf]
    simp only [hcond, decide_False, Bool.false_and, Bool.false_eq_true, if_false, ht]
    unfold principalService.deletePolicyVersion principalService.callDeletePolicyVersion
    simp only [principalService.record]
    cases hd : (p.iamSvc.DeletePolicyVersion p.account.PrincipalPolicyArn.str target.VersionId s).1 <;>
      simp [hd]
  refine ⟨target, hmem, h1, h4, hissued, ?_⟩
  rw [hissued]
  simp [List.filter_append, Call.op]

/-- Witness of C2 on a list of five versions with one default. -/
theorem prunePolicyVersions_deletes_oldest_non_default_witness :
    (fiveVersionsService.iamSvc.ListPolicyVersions
        "arn:aws:iam::acct-123:policy/DCEPrincipalDefaultPolicy" () = (.ok fiveVersions, ()) ∧
      5 ≤ fiveVersions.length ∧ (∃ v ∈ fiveVersions, v.IsDefaultVersion = false)) ∧
    ∃ target ∈ fiveVersions,
      target.IsDefaultVersion = false ∧
      (∀ w ∈ fiveVersions, w.IsDefaultVersion = false → target.CreateDate ≤ w.CreateDate) ∧
      fiveVersionsService.prunePolicyVersions.2.issued =
        [] ++
          [⟨.ListPolicyVersions "arn:aws:iam::acct-123:policy/DCEPrincipalDefaultPolicy", none⟩,
           ⟨.DeletePolicyVersion "arn:aws:iam::acct-123:policy/DCEPrincipalDefaultPolicy" target.VersionId,
             none⟩] ∧
      (fiveVersionsService.prunePolicyVersions.2.issued.filter
          (fun i => i.call.op = Op.DeletePolicyVersion)).length =
        (([] : List Issued).filter (fun i => i.call.op = Op.DeletePolicyVersion)).length + 1 :=
  ⟨⟨rfl, by decide, ⟨⟨"v1", false, 30⟩, by decide, rfl⟩⟩,
    prunePolicyVersions_deletes_oldest_non_default
      fiveVersionsService fiveVersions ()
      rfl (by decide) ⟨⟨"v1", false, 30⟩, by decide, rfl⟩⟩

/-- C3, counterexample: `ListPolicyVersions` returns a single version that is
not the default one.  The list has fewer than 5 versions, yet
`prunePolicyVersions` issues a `DeletePolicyVersion` call for that version:
the early return asks for more than one version. -/
theorem prunePolicyVersions_single_non_default_is_deleted :
    singleNonDefaultService.prunePolicyVersions.1 = none ∧
    singleNonDefaultService.prunePolicyVersions.2.issued =
      [⟨.ListPolicyVersions "arn:aws:iam::acct-123:policy/DCEPrincipalDefaultPolicy", none⟩,
       ⟨.DeletePolicyVersion "arn:aws:iam::acct-123:policy/DCEPrincipalDefaultPolicy" "v1", none⟩] := by
  refine ⟨rfl, rfl⟩

/-- With two to four versions `prunePolicyVersions` returns success after the
listing alone, whatever the default flags. -/
theorem prunePolicyVersions_two_to_four_is_noop (p : principalService σ)
    (versions : List PolicyVersion) (s : σ)
    (hlist : p.iamSvc.ListPolicyVersions p.account.PrincipalPolicyArn.str p.iamState = (.ok versions, s))
    (hlo : 1 < versions.length) (hhi : versions.length < 5) :
    p.prunePolicyVersions =
      (none, p.record (.ListPolicyVersions p.account.PrincipalPolicyArn.str) none s) := by
  unfold principalService.prunePolicyVersions principalService.callListPolicyVersions
  simp [hlist, errOf, hlo, hhi]

/-- The loop of `prunePolicyVersions` finds no candidate in a list of default
versions. -/
theorem oldestNonDefault_all_default (versions : List PolicyVersion)
    (h : ∀ v ∈ versions, v.IsDefaultVersion = true) :
    oldestNonDefault versions = none := by
  cases hr : oldestNonDefault versions with
  | none => rfl
  | some v =>
    obtain ⟨hnd, hmem, _, _⟩ :=
      foldl_pruneStep_some versions none v (by intro a ha; cases ha) hr
    rcases hmem with hmem | hmem
    · cases hmem
    · rw [h v hmem] at hnd
      cases hnd

/-- C3, amended: when `ListPolicyVersions` returns fewer than 5 versions and a
list of at most one version holds no non-default version (the empty list, a
single default version, or 2 to 4 versions with any default flags),
`prunePolicyVersions` returns success after the listing alone: no
`DeletePolicyVersion` call is issued. -/
theorem prunePolicyVersions_below_capacity_is_noop (p : principalService σ)
    (versions : List PolicyVersion) (s : σ)
    (hlist : p.iamSvc.ListPolicyVersions p.account.PrincipalPolicyArn.str p.iamState = (.ok versions, s))
    (hlen : versions.length < 5)
    (hdefault : versions.length ≤ 1 → ∀ v ∈ versions, v.IsDefaultVersion = true) :
    p.prunePolicyVersions =
        (none, p.record (.ListPolicyVersions p.account.PrincipalPolicyArn.str) none s) ∧
      p.prunePolicyVersions.2.issued =
        p.issued ++ [⟨.ListPolicyVersions p.account.PrincipalPolicyArn.str, none⟩] ∧
      p.prunePolicyVersions.2.issued.filter (fun i => i.call.op = Op.DeletePolicyVersion) =
        p.issued.filter (fun i => i.call.op = Op.DeletePolicyVersion) := by
  suffices h : p.prunePolicyVersions =
      (none, p.record (.ListPolicyVersions p.account.PrincipalPolicyArn.str) none s) by
    rw [h]
    refine ⟨rfl, rfl, ?_⟩
    simp [principalService.record, List.filter_append, Call.op]
  by_cases hlo : 1 < versions.length
  · exact prunePolicyVersions_two_to_four_is_noop p versions s hlist hlo hlen
  · have hnone := oldestNonDefault_all_default versions (hdefault (by omega))
    unfold principalService.prunePolicyVersions principalService.callListPolicyVersions
    simp only [hlist, errOf]
    simp [hlo, hnone]

/-- Witness of C3 (amended) on a policy that has its default version only. -/
theorem prunePolicyVersions_below_capacity_is_noop_witness :
    (freshService.iamSvc.ListPolicyVersions freshService.account.PrincipalPolicyArn.str
        freshService.iamState = (.ok [⟨"v1", true, 0⟩], ()) ∧
      [PolicyVersion.mk "v1" true 0].length < 5 ∧
      ([PolicyVersion.mk "v1" true 0].length ≤ 1 →
        ∀ v ∈ [PolicyVersion.mk "v1" true 0], v.IsDefaultVersion = true)) ∧
    (freshService.prunePolicyVersions =
        (none,
          freshService.record (.ListPolicyVersions freshService.account.PrincipalPolicyArn.str)
            none ()) ∧
      freshService.prunePolicyVersions.2.issued =
        freshService.issued ++
          [⟨.ListPolicyVersions freshService.account.PrincipalPolicyArn.str, none⟩] ∧
      freshService.prunePolicyVersions.2.issued.filter (fun i => i.call.op = Op.DeletePolicyVersion) =
        freshService.issued.filter (fun i => i.call.op = Op.DeletePolicyVersion)) :=
  ⟨⟨rfl, by decide, fun _ => by decide⟩,
    prunePolicyVersions_below_capacity_is_noop freshService [⟨"v1", true, 0⟩] () rfl (by decide)
      (fun _ => by decide)⟩

/-! ## Theorems: `DeletePolicy` -/

/-- The first loop of `DeletePolicy` keeps the account, and either stops at
the first non-default version whose deletion fails, or deletes every
non-default version in list order. -/
theorem deleteVersionsLoop_spec (versions : List PolicyVersion) :
    ∀ p : principalService σ,
      (principalService.deleteVersionsLoop versions p).2.account = p.account ∧
      ((∃ pre v post err,
          versions.filter (fun w => !w.IsDefaultVersion) = pre ++ v :: post ∧
          (principalService.deleteVersionsLoop versions p).1 =
            some (.internalServer "unexpected error deleting policy version %q on policy %q"
              [v.VersionId, p.account.PrincipalPolicyArn.str] err) ∧
          (principalService.deleteVersionsLoop versions p).2.issued =
            p.issued ++
              pre.map (fun w => ⟨.DeletePolicyVersion p.account.PrincipalPolicyArn.str w.VersionId, none⟩) ++
              [⟨.DeletePolicyVersion p.account.PrincipalPolicyArn.str v.VersionId, some err⟩]) ∨
        ((principalService.deleteVersionsLoop versions p).1 = none ∧
          (principalService.deleteVersionsLoop versions p).2.issued =
            p.issued ++
              (versions.filter (fun w => !w.IsDefaultVersion)).map
                (fun w => ⟨.DeletePolicyVersion p.account.PrincipalPolicyArn.str w.VersionId, none⟩))) := by
  induction versions with
  | nil =>
    intro p
    refine ⟨rfl, Or.inr ⟨rfl, ?_⟩⟩
    simp [principalService.deleteVersionsLoop]
  | cons x xs ih =>
    intro p
    cases hx : x.IsDefaultVersion with
    | true =>
      have hloop : principalService.deleteVersionsLoop (x :: xs) p =
          principalService.deleteVersionsLoop xs p := by
        simp [principalService.deleteVersionsLoop, hx]
      have hfilter : (x :: xs).filter (fun w => !w.IsDefaultVersion) =
          xs.filter (fun w => !w.IsDefaultVersion) := by
        simp [List.filter_cons, hx]
      rw [hloop, hfilter]
      exact ih p
    | false =>
      have hfilter : (x :: xs).filter (fun w => !w.IsDefaultVersion) =
          x :: xs.filter (fun w => !w.IsDefaultVersion) := by
        simp [List.filter_cons, hx]
      rw [hfilter]
      cases hd : (p.iamSvc.DeletePolicyVersion p.account.PrincipalPolicyArn.str x.VersionId p.iamState).1 with
      | some err =>
        have hloop : principalService.deleteVersionsLoop (x :: xs) p =
            (some (.internalServer "unexpected error deleting policy version %q on policy %q"
              [x.VersionId, p.account.PrincipalPolicyArn.str] err),
             p.record (.DeletePolicyVersion p.account.PrincipalPolicyArn.str x.VersionId) (some err)
              (p.iamSvc.DeletePolicyVersion p.account.PrincipalPolicyArn.str x.VersionId p.iamState).2) := by
          simp [principalService.deleteVersionsLoop, hx, principalService.deletePolicyVersion,
            principalService.callDeletePolicyVersion, hd]
        rw [hloop]
        refine ⟨rfl, Or.inl ⟨[], x, xs.filter (fun w => !w.IsDefaultVersion), err, rfl, rfl, ?_⟩⟩
        simp [principalService.record]
      | none =>
        have hloop : principalService.deleteVersionsLoop (x :: xs) p =
            principalService.deleteVersionsLoop xs
              (p.record (.DeletePolicyVersion p.account.PrincipalPolicyArn.str x.VersionId) none
                (p.iamSvc.DeletePolicyVersion p.account.PrincipalPolicyArn.str x.VersionId p.iamState).2) := by
          simp [principalService.deleteVersionsLoop, hx, principalService.deletePolicyVersion,
            principalService.callDeletePolicyVersion, hd]
        rw [hloop]
        obtain ⟨hacc, hcases⟩ := ih
          (p.record (.DeletePolicyVersion p.account.PrincipalPolicyArn.str x.VersionId) none
            (p.iamSvc.DeletePolicyVersion p.account.PrincipalPolicyArn.str x.VersionId p.iamState).2)
        refine ⟨hacc, ?_⟩
        rcases hcases with ⟨pre, v, post, err, hsplit, hres, hiss⟩ | ⟨hres, hiss⟩
        · refine Or.inl ⟨x :: pre, v, post, err, ?_, hres, ?_⟩
          · rw [hsplit]
            rfl
          · rw [hiss]
            simp [principalService.record]
        · refine Or.inr ⟨hres, ?_⟩
          rw [hiss]
          simp [principalService.record]

/-- C7: after a successful `ListPolicyVersions`, `DeletePolicy` issues
`DeletePolicyVersion` for the non-default versions in list order (never for a
default one).  Either one of these calls fails: it is the last call issued
(no further `DeletePolicyVersion`, no `DeletePolicy`) and the result is an
internal error; or all succeed: exactly one `DeletePolicy` call follows, and
the result is success when that call succeeds or reports no-such-entity and an
internal error on any other failure. -/
theorem DeletePolicy_call_sequence (p : principalService σ) (versions : List PolicyVersion) (s : σ)
    (hlist : p.iamSvc.ListPolicyVersions p.account.PrincipalPolicyArn.str p.iamState = (.ok versions, s)) :
    (∃ pre v post err,
        versions.filter (fun w => !w.IsDefaultVersion) = pre ++ v :: post ∧
        p.DeletePolicy.1 =
          some (.internalServer "unexpected error deleting policy version %q on policy %q"
            [v.VersionId, p.account.PrincipalPolicyArn.str] err) ∧
        p.DeletePolicy.2.issued =
          p.issued ++ [⟨.ListPolicyVersions p.account.PrincipalPolicyArn.str, none⟩] ++
            pre.map (fun w => ⟨.DeletePolicyVersion p.account.PrincipalPolicyArn.str w.VersionId, none⟩) ++
            [⟨.DeletePolicyVersion p.account.PrincipalPolicyArn.str v.VersionId, some err⟩]) ∨
    (∃ e,
        p.DeletePolicy.2.issued =
          p.issued ++ [⟨.ListPolicyVersions p.account.PrincipalPolicyArn.str, none⟩] ++
            (versions.filter (fun w => !w.IsDefaultVersion)).map
              (fun w => ⟨.DeletePolicyVersion p.account.PrincipalPolicyArn.str w.VersionId, none⟩) ++
            [⟨.DeletePolicy p.account.PrincipalPolicyArn.str, e⟩] ∧
        (e = none ∨ e = some .noSuchEntity → p.DeletePolicy.1 = none) ∧
        (∀ err, e = some err → err ≠ .noSuchEntity →
          p.DeletePolicy.1 =
            some (.internalServer "unexpected error deleting the policy %q"
              [p.account.PrincipalPolicyArn.str] err))) := by
  obtain ⟨hacc, hcases⟩ := deleteVersionsLoop_spec versions
    (p.record (.ListPolicyVersions p.account.PrincipalPolicyArn.str) none s)
  have hunfold : p.DeletePolicy =
      match principalService.deleteVersionsLoop versions
          (p.record (.ListPolicyVersions p.account.PrincipalPolicyArn.str) none s) with
      | (some err, p2) => (some err, p2)
      | (none, p2) =>
        match p2.callDeletePolicy p.account.PrincipalPolicyArn.str with
        | (some err, p3) =>
          if isAWSNoSuchEntityError err then (none, p3)
          else
            (some (.internalServer "unexpected error deleting the policy %q"
              [p.account.PrincipalPolicyArn.str] err), p3)
        | (none, p3) => (none, p3) := by
    unfold principalService.DeletePolicy principalService.callListPolicyVersions
    simp only [hlist, errOf]
  have haccount : (p.record (.ListPolicyVersions p.account.PrincipalPolicyArn.str) none s).account =
      p.account := rfl
  have hissued0 : (p.record (.ListPolicyVersions p.account.PrincipalPolicyArn.str) none s).issued =
      p.issued ++ [⟨.ListPolicyVersions p.account.PrincipalPolicyArn.str, none⟩] := rfl
  rw [haccount, hissued0] at hcases
  rcases hcases with ⟨pre, v, post, err, hsplit, hres, hiss⟩ | ⟨hres, hiss⟩
  · refine Or.inl ⟨pre, v, post, err, hsplit, ?_, ?_⟩
    · rw [hunfold]
      generalize principalService.deleteVersionsLoop versions
        (p.record (.ListPolicyVersions p.account.PrincipalPolicyArn.str) none s) = r at hres hiss
      obtain ⟨r1, r2⟩ := r
      simp only at hres
      subst hres
      rfl
    · rw [hunfold]
      generalize principalService.deleteVersionsLoop versions
        (p.record (.ListPolicyVersions p.account.PrincipalPolicyArn.str) none s) = r at hres hiss
      obtain ⟨r1, r2⟩ := r
      simp only at hres hiss
      subst hres
      exact hiss
  · generalize hr : principalService.deleteVersionsLoop versions
      (p.record (.ListPolicyVersions p.account.PrincipalPolicyArn.str) none s) = r at hres hiss hunfold
    obtain ⟨r1, r2⟩ := r
    simp only at hres hiss
    subst hres
    simp only [principalService.callDeletePolicy] at hunfold
    refine Or.inr ⟨(r2.iamSvc.DeletePolicy p.account.PrincipalPolicyArn.str r2.iamState).1, ?_, ?_, ?_⟩
    · rw [hunfold]
      cases hd : (r2.iamSvc.DeletePolicy p.account.PrincipalPolicyArn.str r2.iamState).1 with
      | none => simp [principalService.record, hiss]
      | some err =>
        by_cases hno : isAWSNoSuchEntityError err = true <;>
          simp [principalService.record, hiss, hno]
    · intro he
      rw [hunfold]
      rcases he with he | he
      · simp [he]
      · simp [he, isAWSNoSuchEntityError]
    · intro err he hne
      rw [hunfold]
      have hno : isAWSNoSuchEntityError err = false := by
        cases err <;> simp_all [isAWSNoSuchEntityError]
      simp [he, hno]

/-- Witness of C7 on a policy with five versions, where every call succeeds. -/
theorem DeletePolicy_call_sequence_witness :
    fiveVersionsService.iamSvc.ListPolicyVersions
      fiveVersionsService.account.PrincipalPolicyArn.str fiveVersionsService.iamState =
        (.ok fiveVersions, ()) ∧
    ((∃ pre v post err,
        fiveVersions.filter (fun w => !w.IsDefaultVersion) = pre ++ v :: post ∧
        fiveVersionsService.DeletePolicy.1 =
          some (.internalServer "unexpected error deleting policy version %q on policy %q"
            [v.VersionId, fiveVersionsService.account.PrincipalPolicyArn.str] err) ∧
        fiveVersionsService.DeletePolicy.2.issued =
          fiveVersionsService.issued ++
            [⟨.ListPolicyVersions fiveVersionsService.account.PrincipalPolicyArn.str, none⟩] ++
            pre.map (fun w =>
              ⟨.DeletePolicyVersion fiveVersionsService.account.PrincipalPolicyArn.str w.VersionId,
                none⟩) ++
            [⟨.DeletePolicyVersion fiveVersionsService.account.PrincipalPolicyArn.str v.VersionId,
              some err⟩]) ∨
    (∃ e,
        fiveVersionsService.DeletePolicy.2.issued =
          fiveVersionsService.issued ++
            [⟨.ListPolicyVersions fiveVersionsService.account.PrincipalPolicyArn.str, none⟩] ++
            (fiveVersions.filter (fun w => !w.IsDefaultVersion)).map
              (fun w =>
                ⟨.DeletePolicyVersion fiveVersionsService.account.PrincipalPolicyArn.str w.VersionId,
                  none⟩) ++
            [⟨.DeletePolicy fiveVersionsService.account.PrincipalPolicyArn.str, e⟩] ∧
        (e = none ∨ e = some .noSuchEntity → fiveVersionsService.DeletePolicy.1 = none) ∧
        (∀ err, e = some err → err ≠ .noSuchEntity →
          fiveVersionsService.DeletePolicy.1 =
            some (.internalServer "unexpected error deleting the policy %q"
              [fiveVersionsService.account.PrincipalPolicyArn.str] err)))) :=
  ⟨rfl, DeletePolicy_call_sequence fiveVersionsService fiveVersions () rfl⟩

/-- C6: evaluation at the failing input.  The policy exists with its default
version and one other version; the provider reports no-such-entity for every
request addressed to a policy that does not exist.  The first `DeletePolicy`
succeeds and removes the policy; the second one, called right after it, fails
with an internal error because its `ListPolicyVersions` reports
no-such-entity. -/
theorem DeletePolicy_second_call_fails :
    twoVersionsService.DeletePolicy.1 = none ∧
    twoVersionsService.DeletePolicy.2.iamState = none ∧
    twoVersionsService.DeletePolicy.2.DeletePolicy.1 =
      some (.internalServer "unexpected error listing policy versions on %q"
        ["arn:aws:iam::acct-123:policy/DCEPrincipalDefaultPolicy"] .noSuchEntity) ∧
    twoVersionsService.DeletePolicy.2.DeletePolicy.2.issued =
      [⟨.ListPolicyVersions "arn:aws:iam::acct-123:policy/DCEPrincipalDefaultPolicy", none⟩,
       ⟨.DeletePolicyVersion "arn:aws:iam::acct-123:policy/DCEPrincipalDefaultPolicy" "v2", none⟩,
       ⟨.DeletePolicy "arn:aws:iam::acct-123:policy/DCEPrincipalDefaultPolicy", none⟩,
       ⟨.ListPolicyVersions "arn:aws:iam::acct-123:policy/DCEPrincipalDefaultPolicy", some .noSuchEntity⟩] := by
  refine ⟨rfl, rfl, rfl, rfl⟩

/-- Whenever `ListPolicyVersions` fails, with no-such-entity as with any other
error, `DeletePolicy` returns an internal error after that single call. -/
theorem DeletePolicy_list_error (p : principalService σ) (err : AwsError) (s : σ)
    (hlist : p.iamSvc.ListPolicyVersions p.account.PrincipalPolicyArn.str p.iamState = (.error err, s)) :
    p.DeletePolicy =
      (some (.internalServer "unexpected error listing policy versions on %q"
        [p.account.PrincipalPolicyArn.str] err),
       p.record (.ListPolicyVersions p.account.PrincipalPolicyArn.str) (some err) s) := by
  unfold principalService.DeletePolicy principalService.callListPolicyVersions
  simp only [hlist, errOf]

/-- The first loop of `DeletePolicy` keeps the client. -/
theorem deleteVersionsLoop_iamSvc (versions : List PolicyVersion) :
    ∀ p : principalService σ, (principalService.deleteVersionsLoop versions p).2.iamSvc = p.iamSvc := by
  induction versions with
  | nil => intro p; rfl
  | cons x xs ih =>
    intro p
    cases hx : x.IsDefaultVersion with
    | true =>
      simp only [principalService.deleteVersionsLoop, hx, Bool.not_true, Bool.false_eq_true, if_false]
      exact ih p
    | false =>
      simp only [principalService.deleteVersionsLoop, hx, Bool.not_false, if_true,
        principalService.deletePolicyVersion, principalService.callDeletePolicyVersion]
      cases hd : (p.iamSvc.DeletePolicyVersion p.account.PrincipalPolicyArn.str x.VersionId p.iamState).1 with
      | some err => rfl
      | none =>
        simp only []
        rw [ih]
        rfl

/-- The three answers of the one-policy provider to `DeletePolicy`. -/
theorem onePolicyProvider_DeletePolicy_cases (arn : String) (st : Option (List PolicyVersion)) :
    onePolicyProvider.DeletePolicy arn st = (some .noSuchEntity, none) ∨
      (∃ vs, onePolicyProvider.DeletePolicy arn st = (some (.other "DeleteConflict"), some vs)) ∨
      onePolicyProvider.DeletePolicy arn st = (none, none) := by
  cases st with
  | none => exact Or.inl rfl
  | some vs =>
    cases hany : vs.any (fun v => !v.IsDefaultVersion) with
    | true => exact Or.inr (Or.inl ⟨vs, by simp only [onePolicyProvider, hany, if_true]⟩)
    | false =>
      exact Or.inr (Or.inr (by simp only [onePolicyProvider, hany, Bool.false_eq_true, if_false]))

/-- On the one-policy provider a successful `DeletePolicy` leaves no policy
behind. -/
theorem DeletePolicy_success_removes_policy (p : principalService (Option (List PolicyVersion)))
    (hp : p.iamSvc = onePolicyProvider) (hok : p.DeletePolicy.1 = none) :
    p.DeletePolicy.2.iamState = none ∧ p.DeletePolicy.2.iamSvc = onePolicyProvider ∧
      p.DeletePolicy.2.account = p.account := by
  unfold principalService.DeletePolicy principalService.callListPolicyVersions at hok ⊢
  cases hl : (p.iamSvc.ListPolicyVersions p.account.PrincipalPolicyArn.str p.iamState).1 with
  | error err =>
    simp only [hl] at hok
    cases hok
  | ok versions =>
    simp only [hl] at hok ⊢
    have hsvc := deleteVersionsLoop_iamSvc versions
      (p.record (.ListPolicyVersions p.account.PrincipalPolicyArn.str) (errOf (Except.ok versions))
        (p.iamSvc.ListPolicyVersions p.account.PrincipalPolicyArn.str p.iamState).2)
    have hacc := (deleteVersionsLoop_spec versions
      (p.record (.ListPolicyVersions p.account.PrincipalPolicyArn.str) (errOf (Except.ok versions))
        (p.iamSvc.ListPolicyVersions p.account.PrincipalPolicyArn.str p.iamState).2)).1
    generalize principalService.deleteVersionsLoop versions
      (p.record (.ListPolicyVersions p.account.PrincipalPolicyArn.str) (errOf (Except.ok versions))
        (p.iamSvc.ListPolicyVersions p.account.PrincipalPolicyArn.str p.iamState).2) = r at hok hsvc hacc ⊢
    obtain ⟨r1, r2⟩ := r
    simp only [principalService.record] at hsvc hacc
    cases r1 with
    | some err =>
      simp only at hok
      cases hok
    | none =>
      simp only [principalService.callDeletePolicy, hsvc, hp, principalService.record] at hok ⊢
      rcases onePolicyProvider_DeletePolicy_cases p.account.PrincipalPolicyArn.str r2.iamState with
        h | ⟨vs, h⟩ | h
      · simp only [h] at hok ⊢
        simp [isAWSNoSuchEntityError, hacc]
      · simp only [h] at hok
        simp [isAWSNoSuchEntityError] at hok
      · simp only [h] at hok ⊢
        simp [hacc]

/-- On the one-policy provider, whatever its state, two `DeletePolicy` calls
in succession never both succeed: a success of the first removes the policy
and the second then fails on its listing. -/
theorem DeletePolicy_twice_never_both_succeed (p : principalService (Option (List PolicyVersion)))
    (hp : p.iamSvc = onePolicyProvider) :
    ¬ (p.DeletePolicy.1 = none ∧ p.DeletePolicy.2.DeletePolicy.1 = none) := by
  rintro ⟨h1, h2⟩
  obtain ⟨hst, hsvc, _⟩ := DeletePolicy_success_removes_policy p hp h1
  have hlist : p.DeletePolicy.2.iamSvc.ListPolicyVersions p.DeletePolicy.2.account.PrincipalPolicyArn.str
      p.DeletePolicy.2.iamState = (.error .noSuchEntity, none) := by
    rw [hsvc, hst]
    rfl
  rw [DeletePolicy_list_error _ _ _ hlist] at h2
  cases h2

/-! ## Theorems: `MergePolicyBluepi` -/

/-- C9: evaluation at the failing input.  The account has no hash and the
policy already exists (`CreatePolicy` reports already-exists); every other
provider operation succeeds.  `MergePolicy` goes on to list the versions and
to create a new version set as default.  `MergePolicyBluepi`, called with
the same policy name on the same provider, returns success after
`CreatePolicy` alone: no `ListPolicyVersions`, no `CreatePolicyVersion`. -/
theorem MergePolicyBluepi_stops_when_policy_exists :
    existingPolicyService.account.PrincipalPolicyHash = none ∧
    existingPolicyService.MergePolicy.1 = none ∧
    existingPolicyService.MergePolicy.2.issued =
      [⟨.CreatePolicy "DCEPrincipalDefaultPolicy" "principal policy" "doc", some .entityAlreadyExists⟩,
       ⟨.ListPolicyVersions "arn:aws:iam::acct-123:policy/DCEPrincipalDefaultPolicy", none⟩,
       ⟨.CreatePolicyVersion "arn:aws:iam::acct-123:policy/DCEPrincipalDefaultPolicy" "doc" true,
         none⟩] ∧
    (existingPolicyService.MergePolicyBluepi "DCEPrincipalDefaultPolicy" "DCEPrincipal").1 = none ∧
    (existingPolicyService.MergePolicyBluepi "DCEPrincipalDefaultPolicy" "DCEPrincipal").2.issued =
      [⟨.CreatePolicy "DCEPrincipalDefaultPolicy" "principal policy" "doc",
        some .entityAlreadyExists⟩] := by
  refine ⟨rfl, rfl, rfl, rfl, rfl⟩

/-- When the policy already exists and `CreatePolicyVersion` fails, the two
functions differ in their result as well: `MergePolicy` returns an error,
`MergePolicyBluepi` returns success after `CreatePolicy`. -/
theorem MergePolicyBluepi_differs_when_policy_exists :
    failingVersionService.MergePolicy.2.issued.map (fun i => i.call.op) =
      [.CreatePolicy, .ListPolicyVersions, .CreatePolicyVersion] ∧
    (failingVersionService.MergePolicyBluepi "DCEPrincipalDefaultPolicy" "DCEPrincipal").2.issued.map
        (fun i => i.call.op) =
      [.CreatePolicy] ∧
    failingVersionService.MergePolicy.1.isSome = true ∧
    (failingVersionService.MergePolicyBluepi "DCEPrincipalDefaultPolicy" "DCEPrincipal").1 = none := by
  refine ⟨rfl, rfl, rfl, rfl⟩

/-- What `MergePolicyBluepi` does and where it agrees with `MergePolicy`: take
an account with no recorded hash, let both templates render, and let the
provider give `CreatePolicy` the same answer `r` for both requests.
`MergePolicyBluepi` leaves the account as it is and issues exactly one call,
`CreatePolicy`.  If `r` is not already-exists, `MergePolicy` issues that one
call too and both return the same success or failure, with the same cause;
if `r` is already-exists, `MergePolicyBluepi` returns success right there. -/
theorem MergePolicyBluepi_agrees_unless_policy_exists (p : principalService σ)
    (policy_name role_name policy policyHash policyB policyHashB : String)
    (r : Option AwsError) (s sB : σ)
    (hnil : p.account.PrincipalPolicyHash = none)
    (hbuild : p.buildPolicy = .ok (policy, policyHash))
    (hbuildB : p.buildPolicyBluepi policy_name role_name = .ok (policyB, policyHashB))
    (hcreate : p.iamSvc.CreatePolicy p.account.PrincipalPolicyArn.IAMResourceName
      p.config.PrincipalPolicyDescription policy p.iamState = (r, s))
    (hcreateB : p.iamSvc.CreatePolicy policy_name p.config.PrincipalPolicyDescription policyB
      p.iamState = (r, sB)) :
    (p.MergePolicyBluepi policy_name role_name).2.account = p.account ∧
    (p.MergePolicyBluepi policy_name role_name).2.issued =
      p.issued ++ [⟨.CreatePolicy policy_name p.config.PrincipalPolicyDescription policyB, r⟩] ∧
    (r ≠ some .entityAlreadyExists →
      p.MergePolicy.2.issued =
        p.issued ++ [⟨.CreatePolicy p.account.PrincipalPolicyArn.IAMResourceName
          p.config.PrincipalPolicyDescription policy, r⟩] ∧
      ((p.MergePolicyBluepi policy_name role_name).1 = none ↔ p.MergePolicy.1 = none) ∧
      (∀ err, r = some err →
        (p.MergePolicyBluepi policy_name role_name).1 =
          some (.internalServer "unexpected error creating policy %s" [policy_name] err) ∧
        p.MergePolicy.1 =
          some (.internalServer "unexpected error creating policy %q"
            [p.account.PrincipalPolicyArn.str] err))) ∧
    (r = some .entityAlreadyExists → (p.MergePolicyBluepi policy_name role_name).1 = none) := by
  have hB : p.MergePolicyBluepi policy_name role_name =
      (if r = none ∨ r = some .entityAlreadyExists then none
        else r.map (fun err => .internalServer "unexpected error creating policy %s" [policy_name] err),
       p.record (.CreatePolicy policy_name p.config.PrincipalPolicyDescription policyB) r sB) := by
    unfold principalService.MergePolicyBluepi principalService.callCreatePolicy
    simp only [hbuildB, hcreateB]
    cases r with
    | none => simp
    | some err => cases err <;> simp [isAWSAlreadyExistsError]
  have hM : r ≠ some .entityAlreadyExists → p.MergePolicy =
      (r.map (fun err => .internalServer "unexpected error creating policy %q"
          [p.account.PrincipalPolicyArn.str] err),
       if r = none then
        (p.record (.CreatePolicy p.account.PrincipalPolicyArn.IAMResourceName
          p.config.PrincipalPolicyDescription policy) r s).setHash policyHash
       else
        p.record (.CreatePolicy p.account.PrincipalPolicyArn.IAMResourceName
          p.config.PrincipalPolicyDescription policy) r s) := by
    intro hr
    unfold principalService.MergePolicy principalService.callCreatePolicy
    simp only [hbuild, hnil, hcreate]
    cases r with
    | none => simp
    | some err => cases err <;> simp_all [isAWSAlreadyExistsError]
  refine ⟨?_, ?_, ?_, ?_⟩
  · rw [hB]
    rfl
  · rw [hB]
    simp [principalService.record]
  · intro hr
    rw [hB, hM hr]
    cases r with
    | none => simp [principalService.record, principalService.setHash]
    | some err => simp_all [principalService.record]
  · intro hr
    rw [hB]
    simp [hr]

/-! ## Theorems: `UpdateLeaseByID` -/

/-- C8, counterexample: the path identifier is empty (no `leaseID` route
variable) and the payload carries `"id": ""`.  The payload's id is equal to
the path identifier, yet validation fails on `NilOrNotEmpty` and `Update` is
not called. -/
theorem UpdateLeaseByID_rejects_empty_id_equal_to_path :
    (Lease.mk (some "") []).ID = some "" ∧
    UpdateLeaseByID (fun _ l => .ok l) "" (.ok ⟨some "", []⟩) =
      ⟨[.error (.validation "lease" [("id", "cannot be blank")])], []⟩ := by
  refine ⟨rfl, ?_⟩
  decide

/-- Validation of the request object passes exactly when the payload's id is
absent, or non-empty and equal to the path identifier. -/
theorem ValidateStruct_none_iff (leaseID : String) (newLease : Lease) :
    ValidateStruct newLease [NilOrNotEmpty, In [leaseID]] = none ↔
      (newLease.ID = none ∨ (newLease.ID = some leaseID ∧ leaseID ≠ "")) := by
  unfold ValidateStruct Validate Validate Validate NilOrNotEmpty In
  cases h : newLease.ID with
  | none => simp
  | some id =>
    by_cases he : id = ""
    · subst he
      simp
      intro h1
      exact h1.symm
    · by_cases heq : id = leaseID
      · subst heq
        simp [he]
      · simp [he, heq]

/-- C8, amended: for every path identifier and every decoded payload, the
handler passes validation and calls `Update` (once, with the path identifier
and the decoded payload) if and only if the payload's id is absent, or
non-empty and equal to the path identifier; otherwise (the id is present and
is empty or differs from the path identifier) it writes a validation error
and does not call `Update`. -/
theorem UpdateLeaseByID_calls_Update_iff (Update : String → Lease → Except String Lease)
    (leaseID : String) (newLease : Lease) :
    (ValidateStruct newLease [NilOrNotEmpty, In [leaseID]] = none ↔
      (newLease.ID = none ∨ (newLease.ID = some leaseID ∧ leaseID ≠ ""))) ∧
    ((UpdateLeaseByID Update leaseID (.ok newLease)).updates = [(leaseID, newLease)] ↔
      (newLease.ID = none ∨ (newLease.ID = some leaseID ∧ leaseID ≠ ""))) ∧
    (¬ (newLease.ID = none ∨ (newLease.ID = some leaseID ∧ leaseID ≠ "")) →
      ∃ errs, UpdateLeaseByID Update leaseID (.ok newLease) =
        ⟨[.error (.validation "lease" errs)], []⟩) := by
  have hv := ValidateStruct_none_iff leaseID newLease
  refine ⟨hv, ?_, ?_⟩
  · rw [← hv]
    cases hval : ValidateStruct newLease [NilOrNotEmpty, In [leaseID]] with
    | some errs => simp [UpdateLeaseByID, hval]
    | none =>
      cases hu : Update leaseID newLease <;> simp [UpdateLeaseByID, hval, hu]
  · intro hnot
    rw [← hv] at hnot
    cases hval : ValidateStruct newLease [NilOrNotEmpty, In [leaseID]] with
    | some errs => exact ⟨errs, by simp [UpdateLeaseByID, hval]⟩
    | none => exact absurd hval hnot

/-! ## Theorems: `ResetAccount` -/

/-- C10: evaluation at the failing input.  `Reset` returns an error and no
account (nil): the handler stops on the nil pointer dereference of
`*account.ID` in its log line, before any response is written. -/
theorem ResetAccount_nil_account_with_error_faults :
    ResetAccount (fun _ => (none, some "account not found")) "acct-123" =
      .nilPointerDereference [] := by
  rfl

end DCE
